import Mathlib

/-!
Verification development for the cloud cost and tagging analysis script
(`src/Week10.py`).  The script loads one CSV of resource records, computes
tagging-quality aggregates, and supports a remediation step that re-derives
the `Tagged` flag from tag-field completeness and merges edited rows back.

The embedding below follows the source line by line:

* a `Record` is one row of the table; the four nullable tag fields and the
  other textual columns are `Option String`, the monthly cost is a rational;
* pandas series/mappings (`value_counts`, `groupby(...).sum()`) become
  association lists keyed by the distinct non-null key values, since pandas
  drops null keys from `value_counts` and `groupby` results;
* Python expressions that raise on a zero denominator are embedded as
  `Option` results, `none` standing for the raised `ZeroDivisionError`.
-/

/-- Models the flag literal `'Yes'` used throughout the script. -/
def yesFlag : String := "Yes"

/-- Models the flag literal `'No'` used throughout the script. -/
def noFlag : String := "No"

/-- Models the sentinel literal `"N/A"` of lines 78 and 83. -/
def naSentinel : String := "N/A"

/-- One row of the loaded table.  Columns are those listed in the spec
(section 6); the four tag fields and the other textual columns are nullable
(`Option`), `MonthlyCostUSD` is numeric. -/
structure Record where
  resourceID : Option String
  department : Option String
  project : Option String
  owner : Option String
  costCenter : Option String
  service : Option String
  region : Option String
  environment : Option String
  tagged : Option String
  monthlyCostUSD : ℚ
deriving DecidableEq, Repr

/-- A table is an ordered sequence of records (spec section 3). -/
abbrev Table := List Record

/-- Boolean test for `df['Tagged'] == 'Yes'` (lines 156 and 162). -/
def isYes (r : Record) : Bool := r.tagged = some yesFlag

/-- Boolean test for `df['Tagged'] == 'No'` (lines 77, 104 and 150). -/
def isNo (r : Record) : Bool := r.tagged = some noFlag

/-- Models `df['Tagged'].value_counts()` (line 59): the list of distinct
non-null flag values paired with their multiplicities.  pandas'
`value_counts` drops null entries, hence the `filterMap`. -/
def tagged_counts (t : Table) : List (String × Nat) :=
  (t.filterMap Record.tagged).dedup.map
    (fun v => (v, (t.filterMap Record.tagged).count v))

/-- Models `series.get(key, default)` on a counts mapping (line 63). -/
def countsGet (m : List (String × Nat)) (k : String) (d : Nat) : Nat :=
  match m.find? (fun p => p.1 = k) with
  | some p => p.2
  | none => d

/-- Models `series.get(key, default)` on a cost mapping (lines 69 and 169). -/
def seriesGet (m : List (String × ℚ)) (k : String) (d : ℚ) : ℚ :=
  match m.find? (fun p => p.1 = k) with
  | some p => p.2
  | none => d

/-- Models `df.groupby(key)['MonthlyCostUSD'].sum()` for a nullable key
column: pandas drops rows whose key is null, and each surviving distinct key
is paired with the summed cost of its rows. -/
def groupSumBy (key : Record → Option String) (t : Table) : List (String × ℚ) :=
  (t.filterMap key).dedup.map
    (fun k => (k, ((t.filter (fun r => key r = some k)).map Record.monthlyCostUSD).sum))

/-- Models line 63, `percent_untagged = (tagged_counts.get('No', 0) / len(df)) * 100`.
Python raises `ZeroDivisionError` when `len(df) = 0`; the raise is embedded
as `none`. -/
def percent_untagged (t : Table) : Option ℚ :=
  if t.length = 0 then none
  else some ((countsGet (tagged_counts t) noFlag 0 : ℚ) / (t.length : ℚ) * 100)

/-- Models line 67, `cost_by_tag = df.groupby('Tagged')['MonthlyCostUSD'].sum()`. -/
def cost_by_tag (t : Table) : List (String × ℚ) :=
  groupSumBy Record.tagged t

/-- Models line 68, `total_cost = df['MonthlyCostUSD'].sum()`. -/
def total_cost (t : Table) : ℚ :=
  (t.map Record.monthlyCostUSD).sum

/-- Models line 69, `untagged_cost = cost_by_tag.get('No', 0)`. -/
def untagged_cost (t : Table) : ℚ :=
  seriesGet (cost_by_tag t) noFlag 0

/-- Models line 70, `percent_untagged_cost = (untagged_cost / total_cost) * 100`.
The zero-denominator raise is embedded as `none`. -/
def percent_untagged_cost (t : Table) : Option ℚ :=
  if total_cost t = 0 then none
  else some (untagged_cost t / total_cost t * 100)

/-- Models line 77: untagged rows grouped by department, costs summed. -/
def untagged_dept_cost (t : Table) : List (String × ℚ) :=
  groupSumBy Record.department (t.filter isNo)

/-- Helper for `idxmax`: fold keeping the key of the largest value seen so
far, ties resolved to the earlier entry (pandas `idxmax` returns the first
occurrence of the maximum). -/
def idxmaxAux : String × ℚ → List (String × ℚ) → String
  | best, [] => best.1
  | best, p :: ps => idxmaxAux (if best.2 < p.2 then p else best) ps

/-- Models line 78, `untagged_dept_cost.idxmax() if not untagged_dept_cost.empty else "N/A"`. -/
def dept_most_untagged_cost (t : Table) : String :=
  match untagged_dept_cost t with
  | [] => naSentinel
  | p :: ps => idxmaxAux p ps

/-- Models line 82, `project_cost = df.groupby('Project')['MonthlyCostUSD'].sum()`. -/
def project_cost (t : Table) : List (String × ℚ) :=
  groupSumBy Record.project t

/-- Models line 83, `project_cost.idxmax() if not project_cost.empty else "N/A"`. -/
def project_most_cost (t : Table) : String :=
  match project_cost t with
  | [] => naSentinel
  | p :: ps => idxmaxAux p ps

/-- The four tag fields of line 92, `tag_fields = ['Department', 'Project', 'Owner', 'CostCenter']`. -/
def tag_fields (r : Record) : List (Option String) :=
  [r.department, r.project, r.owner, r.costCenter]

/-- Models line 93, `df[tag_fields].notnull().sum(axis=1)`: the per-record
count of non-null values among the four tag fields. -/
def TagCompletenessScore (r : Record) : Nat :=
  (tag_fields r).countP Option.isSome

/-- Models the enrichment of line 93, which adds the derived column to the
table: each record is paired with its new column value. -/
def withTagCompletenessScore (t : Table) : List (Record × Nat) :=
  t.map (fun r => (r, TagCompletenessScore r))

/-- Models `edited_df[tag_fields].notnull().all(axis=1)` on one record
(line 161). -/
def allTagsPresent (r : Record) : Bool :=
  (tag_fields r).all Option.isSome

/-- Models line 161: overwrite the `Tagged` flag from tag-field completeness,
`.map({True: 'Yes', False: 'No'})`. -/
def recomputeFlag (r : Record) : Record :=
  { r with tagged := some (if allTagsPresent r then yesFlag else noFlag) }

/-- Models lines 156-157, `combined_df = pd.concat([tagged_df, edited_df])`:
the original rows with flag `Yes` followed by the edited rows as given. -/
def combined_df (t : Table) (edited : Table) : Table :=
  t.filter isYes ++ edited

/-- Models line 162 for an arbitrary edited subset: flags of the edited rows
are recomputed (line 161) and the result is appended to the original rows
with flag `Yes`. -/
def updated_merge (t : Table) (edited : Table) : Table :=
  t.filter isYes ++ edited.map recomputeFlag

/-- The remediation recompute of lines 150-162 applied with the untagged
subset unchanged (spec 4.3): when the untagged subset is empty the guard
`if not untagged_df.empty` of line 152 skips the whole block and the table
stays as it is; otherwise split the table by flag, recompute the flags of
the `No` rows, and merge, tagged rows first. -/
def updated_df (t : Table) : Table :=
  if (t.filter isNo).isEmpty then t
  else updated_merge t (t.filter isNo)

/-- Models line 165, `updated_cost_by_tag = updated_df.groupby('Tagged')['MonthlyCostUSD'].sum()`. -/
def updated_cost_by_tag (t : Table) : List (String × ℚ) :=
  cost_by_tag (updated_df t)

/-- Models lines 168-170: the post-remediation untagged-cost percentage,
with the zero-denominator raise embedded as `none`. -/
def updated_percent_untagged_cost (t : Table) : Option ℚ :=
  if total_cost (updated_df t) = 0 then none
  else some (seriesGet (updated_cost_by_tag t) noFlag 0 / total_cost (updated_df t) * 100)

/-! Sample records used by witnesses and counterexamples. -/

/-- A sample string value for populated fields. -/
def sampleStr : String := "x"

/-- A record with every field populated and flag `Yes`. -/
def rFull : Record :=
  ⟨some sampleStr, some sampleStr, some sampleStr, some sampleStr, some sampleStr,
   some sampleStr, some sampleStr, some sampleStr, some yesFlag, 1⟩

/-- A record with every field null and cost `0`. -/
def rNull : Record :=
  ⟨none, none, none, none, none, none, none, none, none, 0⟩

/-- An untagged record with cost `0`. -/
def rZeroCost : Record :=
  ⟨none, none, none, none, none, none, none, none, some noFlag, 0⟩

/-- A record whose flag is neither `Yes` nor `No`. -/
def rOddFlag : Record :=
  ⟨some sampleStr, some sampleStr, some sampleStr, some sampleStr, some sampleStr,
   some sampleStr, some sampleStr, some sampleStr, some sampleStr, 5⟩

/-- Unfolds `allTagsPresent` into the conjunction of the four presence tests. -/
theorem allTagsPresent_iff (r : Record) :
    allTagsPresent r = true ↔
      r.department.isSome = true ∧ r.project.isSome = true ∧
        r.owner.isSome = true ∧ r.costCenter.isSome = true := by
  simp [allTagsPresent, tag_fields]

/-- C4: for every edited record, the recomputed `Tagged` flag is `Yes` iff
all four tag fields (Department, Project, Owner, CostCenter) are non-null on
that record, and is `No` otherwise (src/Week10.py line 161). -/
theorem recomputeFlag_yes_iff (r : Record) :
    ((recomputeFlag r).tagged = some yesFlag ↔
      r.department.isSome = true ∧ r.project.isSome = true ∧
        r.owner.isSome = true ∧ r.costCenter.isSome = true) ∧
    (¬(r.department.isSome = true ∧ r.project.isSome = true ∧
        r.owner.isSome = true ∧ r.costCenter.isSome = true) →
      (recomputeFlag r).tagged = some noFlag) := by
  cases h : allTagsPresent r with
  | true =>
    have hc := (allTagsPresent_iff r).mp h
    constructor
    · simp [recomputeFlag, h, hc]
    · intro hn; exact absurd hc hn
  | false =>
    have hc : ¬(r.department.isSome = true ∧ r.project.isSome = true ∧
        r.owner.isSome = true ∧ r.costCenter.isSome = true) := by
      intro hcon
      exact absurd ((allTagsPresent_iff r).mpr hcon) (by simp [h])
    constructor
    · constructor
      · intro habs
        simp [recomputeFlag, h] at habs
        exact absurd habs.symm (by decide)
      · intro hcon; exact absurd hcon hc
    · intro _; simp [recomputeFlag, h]

/-- Witness for `recomputeFlag_yes_iff` at the fully populated record. -/
theorem recomputeFlag_yes_iff_witness :
    ((recomputeFlag rFull).tagged = some yesFlag ↔
      rFull.department.isSome = true ∧ rFull.project.isSome = true ∧
        rFull.owner.isSome = true ∧ rFull.costCenter.isSome = true) ∧
    (¬(rFull.department.isSome = true ∧ rFull.project.isSome = true ∧
        rFull.owner.isSome = true ∧ rFull.costCenter.isSome = true) →
      (recomputeFlag rFull).tagged = some noFlag) :=
  recomputeFlag_yes_iff rFull

/-- C7: the completeness score is at most 4, and equals 4 iff all four tag
fields are non-null (src/Week10.py lines 92-93); the lower bound 0 is
immediate since the score is a natural number. -/
theorem TagCompletenessScore_range (r : Record) :
    TagCompletenessScore r ≤ 4 ∧
      (TagCompletenessScore r = 4 ↔
        r.department.isSome = true ∧ r.project.isSome = true ∧
          r.owner.isSome = true ∧ r.costCenter.isSome = true) := by
  unfold TagCompletenessScore tag_fields
  cases r.department <;> cases r.project <;> cases r.owner <;> cases r.costCenter <;>
    simp [List.countP_cons]

/-- Witness for `TagCompletenessScore_range` at the fully populated record. -/
theorem TagCompletenessScore_range_witness :
    TagCompletenessScore rFull ≤ 4 ∧
      (TagCompletenessScore rFull = 4 ↔
        rFull.department.isSome = true ∧ rFull.project.isSome = true ∧
          rFull.owner.isSome = true ∧ rFull.costCenter.isSome = true) :=
  TagCompletenessScore_range rFull

/-- C10: enriching the table with the completeness score leaves the records,
their order and their count unchanged, and the added column value of each
row is exactly its completeness score (src/Week10.py line 93). -/
theorem withTagCompletenessScore_frame (t : Table) :
    (withTagCompletenessScore t).map Prod.fst = t ∧
    (withTagCompletenessScore t).length = t.length ∧
    ∀ p ∈ withTagCompletenessScore t, p.2 = TagCompletenessScore p.1 := by
  refine ⟨?_, ?_, ?_⟩
  · unfold withTagCompletenessScore
    rw [List.map_map]
    exact List.map_id t
  · simp [withTagCompletenessScore]
  · intro p hp
    rcases List.mem_map.mp hp with ⟨r, _, rfl⟩
    rfl

/-- Witness for `withTagCompletenessScore_frame` on a concrete table. -/
theorem withTagCompletenessScore_frame_witness :
    (withTagCompletenessScore [rFull, rNull]).map Prod.fst = [rFull, rNull] ∧
    (withTagCompletenessScore [rFull, rNull]).length = ([rFull, rNull] : Table).length ∧
    ∀ p ∈ withTagCompletenessScore [rFull, rNull], p.2 = TagCompletenessScore p.1 :=
  withTagCompletenessScore_frame [rFull, rNull]

/-- C2: the literal source divides without a zero guard, so on an empty
table (and on a zero total cost) the percentage computations raise
`ZeroDivisionError` — embedded here as `none` — instead of returning 0 as
the spec requires (src/Week10.py lines 63, 70, 168-170). -/
theorem percent_untagged_zero_division :
    percent_untagged ([] : Table) = none ∧
    percent_untagged_cost ([] : Table) = none ∧
    updated_percent_untagged_cost ([] : Table) = none ∧
    percent_untagged_cost [rZeroCost] = none ∧
    updated_percent_untagged_cost [rZeroCost] = none := by
  refine ⟨rfl, by decide, by decide, ?_, ?_⟩
  · simp [percent_untagged_cost, total_cost, rZeroCost]
  · simp [updated_percent_untagged_cost, updated_df, updated_merge, total_cost,
      isYes, isNo, recomputeFlag, allTagsPresent, tag_fields, rZeroCost, yesFlag, noFlag]

/-- Evaluates any group-by on the empty table to the empty mapping. -/
theorem groupSumBy_nil (key : Record → Option String) : groupSumBy key [] = [] := rfl

/-- C8: whenever a cost group-by yields an empty mapping — in particular on
an empty table, or for the department grouping when no row is untagged —
the arg-max returns the sentinel instead of failing (src/Week10.py
lines 77-78 and 82-83). -/
theorem argmax_default_on_empty (t : Table) :
    (untagged_dept_cost t = [] → dept_most_untagged_cost t = naSentinel) ∧
    (project_cost t = [] → project_most_cost t = naSentinel) ∧
    (t = [] → dept_most_untagged_cost t = naSentinel ∧ project_most_cost t = naSentinel) ∧
    ((∀ r ∈ t, isNo r = false) → dept_most_untagged_cost t = naSentinel) := by
  refine ⟨?_, ?_, ?_, ?_⟩
  · intro h; simp [dept_most_untagged_cost, h]
  · intro h; simp [project_most_cost, h]
  · intro h; subst h; exact ⟨rfl, rfl⟩
  · intro h
    have hfil : t.filter isNo = [] := by
      rw [List.filter_eq_nil_iff]
      intro a ha
      simp [h a ha]
    simp [dept_most_untagged_cost, untagged_dept_cost, hfil, groupSumBy]

/-- Witness for `argmax_default_on_empty` at the empty table. -/
theorem argmax_default_on_empty_witness :
    dept_most_untagged_cost ([] : Table) = naSentinel ∧
      project_most_cost ([] : Table) = naSentinel :=
  (argmax_default_on_empty []).2.2.1 rfl

/-- C6 counterexample: on a table whose single row has a null `Tagged`
value, `value_counts` drops the row, so the per-flag counts sum to 0 while
the table has 1 row. -/
theorem tagged_counts_sum_cex :
    ¬ ((tagged_counts [rNull]).map Prod.snd).sum = ([rNull] : Table).length := by
  decide

/-- Counts the non-null `Tagged` entries: one per row whose flag is non-null. -/
theorem length_filterMap_tagged (t : Table) :
    (t.filterMap Record.tagged).length = (t.filter (fun r => r.tagged.isSome)).length := by
  induction t with
  | nil => rfl
  | cons r t ih => cases h : r.tagged <;> simp [List.filterMap_cons, List.filter_cons, h, ih]

/-- C6 amended: the per-flag counts of `value_counts` (src/Week10.py
line 59) sum to the number of rows whose `Tagged` value is non-null — which
equals the total row count exactly when no row has a null flag. -/
theorem tagged_counts_sum (t : Table) :
    ((tagged_counts t).map Prod.snd).sum = (t.filter (fun r => r.tagged.isSome)).length := by
  unfold tagged_counts
  rw [List.map_map, ← length_filterMap_tagged]
  exact List.sum_map_count_dedup_eq_length (t.filterMap Record.tagged)

/-- C5: the merged remediated table is the original `Yes`-flagged rows — a
sublist of the original table, hence unchanged, in original order, and
exactly the rows with flag `Yes` — followed by the edited rows in their
given order (src/Week10.py lines 156-157). -/
theorem combined_df_structure (t edited : Table) :
    (combined_df t edited).take (t.filter isYes).length = t.filter isYes ∧
    (combined_df t edited).drop (t.filter isYes).length = edited ∧
    (t.filter isYes).Sublist t ∧
    (∀ r ∈ t.filter isYes, r ∈ t ∧ isYes r = true) ∧
    (∀ r ∈ t, isYes r = true → r ∈ t.filter isYes) := by
  refine ⟨List.take_left .., List.drop_left .., List.filter_sublist t, ?_, ?_⟩
  · intro r hr
    exact ⟨(List.mem_filter.mp hr).1, (List.mem_filter.mp hr).2⟩
  · intro r hr h
    exact List.mem_filter.mpr ⟨hr, h⟩

/-- Witness for `combined_df_structure` on concrete tables. -/
theorem combined_df_structure_witness :
    (combined_df [rFull, rZeroCost] [rNull]).take (([rFull, rZeroCost] : Table).filter isYes).length
        = ([rFull, rZeroCost] : Table).filter isYes ∧
    (combined_df [rFull, rZeroCost] [rNull]).drop (([rFull, rZeroCost] : Table).filter isYes).length
        = [rNull] ∧
    (([rFull, rZeroCost] : Table).filter isYes).Sublist [rFull, rZeroCost] ∧
    (∀ r ∈ ([rFull, rZeroCost] : Table).filter isYes, r ∈ ([rFull, rZeroCost] : Table) ∧ isYes r = true) ∧
    (∀ r ∈ ([rFull, rZeroCost] : Table), isYes r = true → r ∈ ([rFull, rZeroCost] : Table).filter isYes) :=
  combined_df_structure [rFull, rZeroCost] [rNull]

/-- C9 counterexample: in a table holding an untagged row — so that the
guard of line 152 fires and the merge of lines 153-162 runs — a row whose
`Tagged` flag is neither `Yes` nor `No` is not passed through: it is in the
input table but absent from the recomputed table. -/
theorem anomaly_passthrough_cex :
    rOddFlag ∈ ([rOddFlag, rZeroCost] : Table) ∧
      rOddFlag ∉ updated_df [rOddFlag, rZeroCost] := by
  constructor
  · exact List.mem_cons_self rOddFlag [rZeroCost]
  · simp [updated_df, updated_merge, isYes, isNo, recomputeFlag, allTagsPresent, tag_fields,
      rOddFlag, rZeroCost, sampleStr, yesFlag, noFlag, Record.mk.injEq]

/-- C9 amended: rows keep their other anomalies (nulls in non-tag fields)
untouched — a `Yes`-flagged row is carried into the remediated table
whatever its other fields — and when the table has no untagged row the
guard of line 152 skips remediation entirely, passing the table through
unchanged; but when an untagged row exists, the merge of lines 153-162
keeps only rows whose flag is `Yes` or `No`: every merged row carries one
of those two flags, and a row with any other flag value is dropped. -/
theorem anomaly_passthrough_amended (t : Table) :
    (∀ r ∈ t, r.tagged = some yesFlag → r ∈ updated_df t) ∧
    ((t.filter isNo).isEmpty = true → updated_df t = t) ∧
    ((t.filter isNo).isEmpty = false →
      (∀ x ∈ updated_df t, x.tagged = some yesFlag ∨ x.tagged = some noFlag) ∧
      (∀ r ∈ t, r.tagged ≠ some yesFlag → r.tagged ≠ some noFlag → r ∉ updated_df t)) := by
  by_cases hg : (t.filter isNo).isEmpty = true
  · have e : updated_df t = t := by
      simp only [updated_df, if_pos hg]
    refine ⟨?_, fun _ => e, ?_⟩
    · intro r hr _
      rw [e]
      exact hr
    · intro hcon
      rw [hg] at hcon
      exact absurd hcon (by decide)
  · have e : updated_df t = updated_merge t (t.filter isNo) := by
      simp only [updated_df, if_neg hg]
    have hflags : ∀ x ∈ updated_df t, x.tagged = some yesFlag ∨ x.tagged = some noFlag := by
      intro x hx
      rw [e] at hx
      simp only [updated_merge] at hx
      rcases List.mem_append.mp hx with hx | hx
      · exact Or.inl (by simpa [isYes] using (List.mem_filter.mp hx).2)
      · rcases List.mem_map.mp hx with ⟨y, _, rfl⟩
        by_cases hy : allTagsPresent y
        · exact Or.inl (by simp [recomputeFlag, hy])
        · exact Or.inr (by simp [recomputeFlag, hy])
    refine ⟨?_, fun hcon => absurd hcon hg, fun _ => ⟨hflags, ?_⟩⟩
    · intro r hr h
      rw [e]
      simp only [updated_merge]
      exact List.mem_append_left _ (List.mem_filter.mpr ⟨hr, by simp [isYes, h]⟩)
    · intro r hr h1 h2 habs
      rcases hflags r habs with h | h
      · exact h1 h
      · exact h2 h

/-- Witness for `anomaly_passthrough_amended`: a `Yes`-flagged row is
carried through the merge of a table that also holds an untagged row. -/
theorem anomaly_passthrough_amended_witness :
    rFull ∈ updated_df [rFull, rZeroCost] :=
  (anomaly_passthrough_amended [rFull, rZeroCost]).1 rFull
    (List.mem_cons_self rFull [rZeroCost]) rfl

/-- Recomputing a flag never changes the tag fields, so a second recompute
writes the same flag again. -/
theorem recomputeFlag_idem (r : Record) : recomputeFlag (recomputeFlag r) = recomputeFlag r := rfl

/-- A recomputed row tests as tagged exactly when its tag fields are all
present. -/
theorem isYes_recomputeFlag (r : Record) : isYes (recomputeFlag r) = allTagsPresent r := by
  cases h : allTagsPresent r <;> simp [isYes, recomputeFlag, h, yesFlag, noFlag]

/-- A recomputed row tests as untagged exactly when a tag field is missing. -/
theorem isNo_recomputeFlag (r : Record) : isNo (recomputeFlag r) = !allTagsPresent r := by
  cases h : allTagsPresent r <;> simp [isNo, recomputeFlag, h, yesFlag, noFlag]

/-- Filtering the tagged rows twice filters them once. -/
theorem filter_isYes_self (t : Table) : (t.filter isYes).filter isYes = t.filter isYes := by
  simp [List.filter_filter, Bool.and_self]

/-- No tagged row tests as untagged. -/
theorem filter_isNo_of_isYes (t : Table) : (t.filter isYes).filter isNo = [] := by
  rw [List.filter_eq_nil_iff]
  intro a ha
  have h : a.tagged = some yesFlag := by simpa [isYes] using (List.mem_filter.mp ha).2
  simp [isNo, h, yesFlag, noFlag]

/-- Re-merging a merged table permutes it: the rows recomputed to `Yes`
migrate in front of those recomputed to `No`, and nothing else changes. -/
theorem updated_merge_self_perm (t : Table) :
    (updated_merge (updated_merge t (t.filter isNo))
        ((updated_merge t (t.filter isNo)).filter isNo)).Perm
      (updated_merge t (t.filter isNo)) := by
  unfold updated_merge
  set B := (t.filter isNo).map recomputeFlag with hB
  rw [List.filter_append, List.filter_append, filter_isYes_self, filter_isNo_of_isYes,
    List.nil_append]
  have hBNo : (B.filter isNo).map recomputeFlag = B.filter isNo := by
    rw [hB, List.filter_map, List.map_map,
      show recomputeFlag ∘ recomputeFlag = recomputeFlag from funext recomputeFlag_idem]
  rw [hBNo, List.append_assoc]
  apply List.Perm.append_left
  have hcongr : B.filter isNo = B.filter (fun x => !isYes x) := by
    apply List.filter_congr
    intro x hx
    rcases List.mem_map.mp hx with ⟨y, _, rfl⟩
    rw [isNo_recomputeFlag, isYes_recomputeFlag]
  rw [hcongr]
  exact List.filter_append_perm isYes B

/-- Applying the remediation recompute twice permutes applying it once;
when a guard of line 152 skips one of the applications the tables are even
equal. -/
theorem updated_df_updated_df_perm (t : Table) :
    (updated_df (updated_df t)).Perm (updated_df t) := by
  by_cases h1 : (t.filter isNo).isEmpty = true
  · have e : updated_df t = t := by
      simp only [updated_df, if_pos h1]
    rw [congrArg updated_df e]
  · have e : updated_df t = updated_merge t (t.filter isNo) := by
      simp only [updated_df, if_neg h1]
    rw [e]
    by_cases h2 : ((updated_merge t (t.filter isNo)).filter isNo).isEmpty = true
    · rw [show updated_df (updated_merge t (t.filter isNo)) = updated_merge t (t.filter isNo)
          from by simp only [updated_df, if_pos h2]]
    · rw [show updated_df (updated_merge t (t.filter isNo))
            = updated_merge (updated_merge t (t.filter isNo))
                ((updated_merge t (t.filter isNo)).filter isNo)
          from by simp only [updated_df, if_neg h2]]
      exact updated_merge_self_perm t

/-- A `find?` looking for a fixed key returns exactly that key when it is
in the list. -/
theorem find?_eq_of_mem {l : List String} {v : String} (h : v ∈ l) :
    l.find? (fun k => k = v) = some v := by
  induction l with
  | nil => cases h
  | cons a l ih =>
    by_cases ha : a = v
    · subst ha
      simp
    · rcases List.mem_cons.mp h with h1 | h1
      · exact absurd h1.symm ha
      · rw [List.find?_cons_of_neg _ (by simpa using ha)]
        exact ih h1

/-- Reading a key off a group-by mapping gives the summed cost of the rows
with that key: their sum when the key occurs, and the default `0` — which
is also the empty sum — when it does not. -/
theorem seriesGet_groupSumBy (key : Record → Option String) (t : Table) (v : String) :
    seriesGet (groupSumBy key t) v 0 =
      ((t.filter (fun r => key r = some v)).map Record.monthlyCostUSD).sum := by
  unfold seriesGet groupSumBy
  rw [List.find?_map]
  by_cases hv : v ∈ (t.filterMap key).dedup
  · have hfind :
        ((t.filterMap key).dedup.find?
          ((fun p => decide (p.1 = v)) ∘
            (fun k => (k, ((t.filter (fun r => key r = some k)).map Record.monthlyCostUSD).sum))))
          = some v := by
      simpa [Function.comp] using find?_eq_of_mem hv
    rw [hfind]
    rfl
  · have hfind :
        ((t.filterMap key).dedup.find?
          ((fun p => decide (p.1 = v)) ∘
            (fun k => (k, ((t.filter (fun r => key r = some k)).map Record.monthlyCostUSD).sum))))
          = none := by
      rw [List.find?_eq_none]
      intro x hx
      simp only [Function.comp]
      intro habs
      exact hv (of_decide_eq_true habs ▸ hx)
    rw [hfind]
    have hfil : t.filter (fun r => key r = some v) = [] := by
      rw [List.filter_eq_nil_iff]
      intro r hr habs
      have hd : v ∈ t.filterMap key := List.mem_filterMap.mpr ⟨r, hr, by simpa using habs⟩
      exact hv (List.mem_dedup.mpr hd)
    rw [hfil]
    rfl

/-- C3: the remediation recompute (derive flag, split, merge tagged then
edited) is idempotent for unchanged field values: applying it twice yields
a permutation of applying it once, hence the same per-flag counts and the
same tag-status cost aggregates (src/Week10.py lines 150-166). -/
theorem updated_df_idempotent (t : Table) :
    (updated_df (updated_df t)).Perm (updated_df t) ∧
    (∀ v, seriesGet (cost_by_tag (updated_df (updated_df t))) v 0 =
      seriesGet (cost_by_tag (updated_df t)) v 0) ∧
    (∀ v, ((updated_df (updated_df t)).map Record.tagged).countP (fun x => x = some v) =
      ((updated_df t).map Record.tagged).countP (fun x => x = some v)) := by
  have hperm := updated_df_updated_df_perm t
  refine ⟨hperm, ?_, ?_⟩
  · intro v
    simp only [cost_by_tag]
    rw [seriesGet_groupSumBy, seriesGet_groupSumBy]
    exact ((hperm.filter _).map Record.monthlyCostUSD).sum_eq
  · intro v
    exact (hperm.map Record.tagged).countP_eq _

/-!
CSV ingestion and repair (src/Week10.py lines 8-41).  A file is represented
by its list of lines, each line a list of characters; the script itself
works line by line (`readlines`, the per-line quote strip), and the claimed
inputs have no quoted newlines, so a line-wise tokenizer is faithful.
-/

/-- Characters removed by Python `str.strip` with no argument. -/
def isPySpace (c : Char) : Bool :=
  c == ' ' || c == '\t' || c == '\n' || c == '\r' || c == '\x0b' || c == '\x0c'

/-- Models Python `str.strip` (line 23): drop whitespace from both ends. -/
def pyStrip (cs : List Char) : List Char :=
  ((cs.dropWhile isPySpace).reverse.dropWhile isPySpace).reverse

/-- Tokenizer state machine for one CSV line, as `pd.read_csv` splits it
with `sep=','` and `quotechar='"'`: arguments are the remaining input, the
in-quotes flag, the just-after-delimiter flag (only consulted when
`skipInit` models `skipinitialspace=True`, line 10), and the reversed
current field. -/
def csvSplit (skipInit : Bool) : List Char → Bool → Bool → List Char → List (List Char)
  | [], _, _, cur => [cur.reverse]
  | c :: cs, true, _, cur =>
    if c = '"' then csvSplit skipInit cs false false cur
    else csvSplit skipInit cs true false (c :: cur)
  | c :: cs, false, aD, cur =>
    if c = ',' then cur.reverse :: csvSplit skipInit cs false true []
    else if skipInit && aD && c = ' ' then csvSplit skipInit cs false true cur
    else if c = '"' && cur.isEmpty then csvSplit skipInit cs true false cur
    else csvSplit skipInit cs false false (c :: cur)

/-- Splits one line into its fields.  The after-delimiter flag starts set:
with `skipinitialspace=True` the pandas/CPython `csv` tokenizer also skips
spaces at the start of a line's first field, not only after commas. -/
def parseLine (skipInit : Bool) (cs : List Char) : List (List Char) :=
  csvSplit skipInit cs false true []

/-- Parses a whole file given as its lines: pandas skips blank lines and
tokenizes each remaining line. -/
def parseFile (skipInit : Bool) (ls : List (List Char)) : List (List (List Char)) :=
  (ls.filter (fun l => !l.isEmpty)).map (parseLine skipInit)

/-- The column count pandas infers, read off the header line; the repair
trigger of line 13 is `numCols = 1`. -/
def numCols (parsed : List (List (List Char))) : Nat :=
  (parsed.headD []).length

/-- Models lines 23-26 of the repair loop: strip surrounding whitespace,
then remove exactly one leading and one trailing double quote when the
line starts and ends with one. -/
def stripWrapQuotes (cs : List Char) : List Char :=
  if (pyStrip cs).head? = some '"' && (pyStrip cs).getLast? = some '"' then
    ((pyStrip cs).drop 1).dropLast
  else pyStrip cs

/-- Header normalization of line 41: strip whitespace from a header name
and remove every remaining double-quote character. -/
def normHeader (cs : List Char) : List Char :=
  (pyStrip cs).filter (fun c => !(c == '"'))

/-- A parsed table: normalized header names plus the raw data rows. -/
structure PTable where
  header : List (List Char)
  rows : List (List (List Char))
deriving DecidableEq, Repr

/-- Builds the table from parsed lines: the first line is the header —
normalized per line 41 — and the remaining lines are the data rows. -/
def mkPTable (parsed : List (List (List Char))) : PTable :=
  { header := (parsed.headD []).map normHeader, rows := parsed.tail }

/-- The ingestion path of lines 8-41: primary parse with
`skipinitialspace=True` (line 10); when it yields exactly one column
(line 13), strip each line's wrapping quotes (lines 22-27) and re-parse
with the default settings, i.e. without `skipinitialspace` (line 34);
always normalize the header (line 41). -/
def ingest (ls : List (List Char)) : PTable :=
  if numCols (parseFile true ls) = 1 then
    mkPTable (parseFile false (ls.map stripWrapQuotes))
  else mkPTable (parseFile true ls)

/-- Wraps a line in one pair of double quotes. -/
def wrapLine (cs : List Char) : List Char :=
  '"' :: (cs ++ ['"'])

/-- Detects a comma immediately followed by a space. -/
def hasCommaSpace : List Char → Bool
  | [] => false
  | [_] => false
  | c :: d :: cs => (c = ',' && d = ' ') || hasCommaSpace (d :: cs)

/-- C1 counterexample: the file with content lines `H, I` and `a, b`, each
wrapped in exactly one pair of double quotes and internally
comma-separated, does not ingest to the table of the unwrapped file: the
primary parse honors `skipinitialspace=True`, but the repair re-parse of
line 34 does not, so the repaired data row keeps the space (`" b"` instead
of `"b"`). -/
theorem ingest_repair_cex :
    ¬ ingest ([['H', ',', ' ', 'I'], ['a', ',', ' ', 'b']].map wrapLine)
        = ingest [['H', ',', ' ', 'I'], ['a', ',', ' ', 'b']] := by
  decide

/-- Inside quotes, a quote-free run is consumed into the current field and
the single closing quote ends both the quoted region and the line. -/
theorem csvSplit_quoted (si : Bool) (cs : List Char) :
    '"' ∉ cs → ∀ (aD : Bool) (cur : List Char),
      csvSplit si (cs ++ ['"']) true aD cur = [cur.reverse ++ cs] := by
  induction cs with
  | nil =>
    intro _ aD cur
    simp [csvSplit]
  | cons c cs ih =>
    intro hq aD cur
    have hc : ¬ c = '"' := fun h => hq (h ▸ List.mem_cons_self c cs)
    have hq' : '"' ∉ cs := fun h => hq (List.mem_cons_of_mem c h)
    rw [List.cons_append,
      show csvSplit si (c :: (cs ++ ['"'])) true aD cur
          = csvSplit si (cs ++ ['"']) true false (c :: cur) from by
        simp [csvSplit, hc],
      ih hq' false (c :: cur)]
    simp

/-- The primary parse reads a wrapped quote-free line as one single field
holding exactly the unwrapped content. -/
theorem parseLine_wrapLine (si : Bool) (l : List Char) (hq : '"' ∉ l) :
    parseLine si (wrapLine l) = [l] := by
  unfold parseLine wrapLine
  rw [show csvSplit si ('"' :: (l ++ ['"'])) false true []
      = csvSplit si (l ++ ['"']) true false [] from by
    simp [csvSplit, (by decide : ¬ ('"' : Char) = ','),
      (by decide : ¬ ('"' : Char) = ' ')]]
  rw [csvSplit_quoted si l hq false []]
  rfl

/-- Stripping whitespace from a line whose first and last characters are
not whitespace changes nothing. -/
theorem pyStrip_of_ends (c d : Char) (hc : isPySpace c = false) (hd : isPySpace d = false)
    (mid : List Char) : pyStrip (c :: (mid ++ [d])) = c :: (mid ++ [d]) := by
  unfold pyStrip
  rw [List.dropWhile_cons]
  simp only [hc, Bool.false_eq_true, if_false]
  rw [show (c :: (mid ++ [d])).reverse = d :: (mid.reverse ++ [c]) from by
    simp [List.reverse_append]]
  rw [List.dropWhile_cons]
  simp only [hd, Bool.false_eq_true, if_false]
  simp [List.reverse_append]

/-- The repair loop recovers exactly the content of a wrapped line: the
strip does nothing (the line starts and ends with a quote, not whitespace)
and the two wrapping quotes are removed. -/
theorem stripWrapQuotes_wrapLine (l : List Char) : stripWrapQuotes (wrapLine l) = l := by
  unfold stripWrapQuotes wrapLine
  rw [pyStrip_of_ends '"' '"' (by decide) (by decide) l]
  have hl : ('"' :: (l ++ ['"'])).getLast? = some '"' := by
    rw [show ('"' :: (l ++ ['"'])) = ('"' :: l) ++ ['"'] from rfl]
    exact List.getLast?_concat _
  simp [hl]

/-- A wrapped file primary-parses to one single-field line per content
line, so the single-column repair trigger fires on it. -/
theorem parseFile_wrapped (ls : List (List Char)) (hq : ∀ l ∈ ls, '"' ∉ l) :
    parseFile true (ls.map wrapLine) = ls.map (fun l => [l]) := by
  unfold parseFile
  have hfil : (ls.map wrapLine).filter (fun l => !l.isEmpty) = ls.map wrapLine := by
    rw [List.filter_eq_self]
    intro a ha
    rcases List.mem_map.mp ha with ⟨l, _, rfl⟩
    rfl
  rw [hfil, List.map_map]
  exact List.map_congr_left (fun l hl => parseLine_wrapLine true l (hq l hl))

/-- A comma-space-free line stays comma-space-free after dropping its head. -/
theorem hasCommaSpace_tail {c : Char} {cs : List Char}
    (h : hasCommaSpace (c :: cs) = false) : hasCommaSpace cs = false := by
  cases cs with
  | nil => rfl
  | cons d cs =>
    rw [hasCommaSpace] at h
    exact (Bool.or_eq_false_iff.mp h).2

/-- In a comma-space-free line, the character after a leading comma is not
a space. -/
theorem hasCommaSpace_head {cs : List Char}
    (h : hasCommaSpace (',' :: cs) = false) : cs.head? ≠ some ' ' := by
  cases cs with
  | nil => simp
  | cons d cs =>
    rw [hasCommaSpace] at h
    have h1 := (Bool.or_eq_false_iff.mp h).1
    rw [show (decide ((',' : Char) = ',')) = true from by decide, Bool.true_and] at h1
    intro habs
    rw [List.head?_cons] at habs
    exact absurd (Option.some.inj habs) (of_decide_eq_false h1)

/-- On a quote-free line with no comma followed by a space, the tokenizer
ignores `skipinitialspace`: the space-skipping branch is never reachable. -/
theorem csvSplit_skipInit_eq (cs : List Char) :
    ∀ (aD : Bool) (cur : List Char), '"' ∉ cs → hasCommaSpace cs = false →
      (aD = true → cs.head? ≠ some ' ') →
      csvSplit true cs false aD cur = csvSplit false cs false aD cur := by
  induction cs with
  | nil =>
    intro aD cur _ _ _
    rfl
  | cons c cs ih =>
    intro aD cur hq hcs haD
    have hq' : '"' ∉ cs := fun h => hq (List.mem_cons_of_mem c h)
    have hcq : ¬ c = '"' := fun h => hq (h ▸ List.mem_cons_self c cs)
    by_cases hc : c = ','
    · subst hc
      have hnext : cs.head? ≠ some ' ' := hasCommaSpace_head hcs
      have hcs' : hasCommaSpace cs = false := hasCommaSpace_tail hcs
      rw [show csvSplit true (',' :: cs) false aD cur
            = cur.reverse :: csvSplit true cs false true [] from by simp [csvSplit],
        show csvSplit false (',' :: cs) false aD cur
            = cur.reverse :: csvSplit false cs false true [] from by simp [csvSplit],
        ih true [] hq' hcs' (fun _ => hnext)]
    · have hnotspace : (aD && decide (c = ' ')) = false := by
        cases aD with
        | false => rfl
        | true =>
          have hcsp : ¬ c = ' ' := by
            intro hsp
            exact haD rfl (by rw [List.head?_cons, hsp])
          simp [hcsp]
      rw [show csvSplit true (c :: cs) false aD cur
            = csvSplit true cs false false (c :: cur) from by
          simp [csvSplit, hc, hcq, hnotspace],
        show csvSplit false (c :: cs) false aD cur
            = csvSplit false cs false false (c :: cur) from by
          simp [csvSplit, hc, hcq],
        ih false (c :: cur) hq' (hasCommaSpace_tail hcs) (fun h => absurd h (by decide))]

/-- On quote-free files with no comma-then-space and no line-leading space,
the repair re-parse of line 34 (no `skipinitialspace`) agrees with the
primary parse of line 10. -/
theorem parseFile_skipInit (ls : List (List Char))
    (hq : ∀ l ∈ ls, '"' ∉ l) (hsp : ∀ l ∈ ls, hasCommaSpace l = false)
    (hhd : ∀ l ∈ ls, l.head? ≠ some ' ') :
    parseFile false ls = parseFile true ls := by
  unfold parseFile
  apply List.map_congr_left
  intro l hl
  have hl' : l ∈ ls := (List.mem_filter.mp hl).1
  exact (csvSplit_skipInit_eq l true [] (hq l hl') (hsp l hl')
    (fun _ => hhd l hl')).symm

/-- C1 amended: for a file whose every line is wrapped in exactly one pair
of double quotes around quote-free, internally comma-separated content, the
ingestion path (primary parse, single-column detection, per-line quote
stripping, re-parse) produces the same table as ingesting the unwrapped
file — provided no comma is immediately followed by a space and no line
begins with a space (the repair re-parse of line 34 skips neither spaces
after delimiters nor line-leading spaces, unlike the primary parse of
line 10) and the unwrapped header parses to more than one column, so that
ingestion of the unwrapped file does not itself trigger the repair. -/
theorem ingest_repair_equiv (ls : List (List Char)) (hne : ls ≠ [])
    (hq : ∀ l ∈ ls, '"' ∉ l)
    (hsp : ∀ l ∈ ls, hasCommaSpace l = false)
    (hhd : ∀ l ∈ ls, l.head? ≠ some ' ')
    (hcols : ¬ numCols (parseFile true ls) = 1) :
    ingest (ls.map wrapLine) = ingest ls := by
  have hone : numCols (parseFile true (ls.map wrapLine)) = 1 := by
    rw [parseFile_wrapped ls hq]
    cases ls with
    | nil => exact absurd rfl hne
    | cons a ls => rfl
  have hstripped : (ls.map wrapLine).map stripWrapQuotes = ls := by
    rw [List.map_map]
    have h : ∀ l ∈ ls, (stripWrapQuotes ∘ wrapLine) l = id l :=
      fun l _ => stripWrapQuotes_wrapLine l
    rw [List.map_congr_left h, List.map_id]
  unfold ingest
  rw [if_pos hone, if_neg hcols, hstripped, parseFile_skipInit ls hq hsp hhd]

/-- Witness for `ingest_repair_equiv` on the two-line file `H,I` / `a,b`. -/
theorem ingest_repair_equiv_witness :
    ingest ([['H', ',', 'I'], ['a', ',', 'b']].map wrapLine)
      = ingest [['H', ',', 'I'], ['a', ',', 'b']] :=
  ingest_repair_equiv [['H', ',', 'I'], ['a', ',', 'b']]
    (by decide) (by decide) (by decide) (by decide) (by decide)
